import Mathlib

/-!
Verification development for the ShadowLink synchronization plugin and its
relay server.  The definitions below are shallow embeddings of the
TypeScript client (src/main.ts) and the JavaScript server
(src/server/server.js, the SecurityValidator bundled in
src/server/monitor.js).  JavaScript strings are Lean String values,
JavaScript numbers holding timestamps and counters are Nat, Map objects are
association lists, and fallible file-system calls either fail
deterministically (create on an existing path) or consume an explicit fault
trace standing for I/O exceptions.
-/

/-! ## Association-list maps (embedding of JavaScript Map and of the vault
file table).  mapGet is Map.get, mapSet is Map.set (replace in place,
append when absent, preserving insertion order like a JS Map). -/

def mapGet {α : Type} (m : List (String × α)) (k : String) : Option α :=
  match m with
  | [] => none
  | (k1, v) :: rest => if k1 = k then some v else mapGet rest k

def mapSet {α : Type} (m : List (String × α)) (k : String) (v : α) : List (String × α) :=
  match m with
  | [] => [(k, v)]
  | (k1, v1) :: rest => if k1 = k then (k, v) :: rest else (k1, v1) :: mapSet rest k v

/-! ## Character-level string utilities.

JavaScript str.split(sep) with a one-character separator, and the
whitespace tests used by str.trim(), are embedded structurally on the
character list of the string so that they evaluate inside the kernel. -/

/-- Embedding of JavaScript str.split(sep) for a single-character
separator, on character lists; always returns at least one piece. -/
def splitOnChar (sep : Char) : List Char → List (List Char)
  | [] => [[]]
  | c :: rest =>
    let r := splitOnChar sep rest
    if c = sep then [] :: r
    else
      match r with
      | [] => [[c]]
      | h :: t => (c :: h) :: t

/-- JavaScript str.split(sep) for a one-character separator. -/
def splitOnCharS (sep : Char) (s : String) : List String :=
  (splitOnChar sep s.data).map String.mk

/-- Embedding of local.split(String.mk [Char.ofNat 10]) in threeWayMerge. -/
def splitLines (s : String) : List String :=
  splitOnCharS '\n' s

/-- JavaScript arr.join(sep). -/
def joinWith (sep : String) : List String → String
  | [] => ""
  | [x] => x
  | x :: rest => x ++ sep ++ joinWith sep rest

/-- Truthiness of line.trim() in JavaScript: the line contains at least one
non-whitespace character. -/
def nonBlank (s : String) : Bool :=
  s.data.any (fun c => !c.isWhitespace)

/-! ## ConflictResolver (src/main.ts lines 12 to 225).

ConflictInfo is the record built by conflict detection.  The merge
helpers threeWayMerge, canSimpleMerge, findChangedLines, hasOverlap and
performSimpleMerge are pure and are embedded directly. -/

structure ConflictInfo where
  type : String
  filePath : String
  localVersion : String
  remoteVersion : String
  localTimestamp : Nat
  remoteTimestamp : Nat
  isResolvable : Bool
  suggestedResolution : String
deriving DecidableEq

/-- findChangedLines (src/main.ts 194-204): the set of indices of lines
whose trimmed text is non-empty, as an ordered list standing for the JS
Set insertion order. -/
def findChangedLines (lines : List String) : List Nat :=
  (lines.enum.filter (fun p => nonBlank p.2)).map (fun p => p.1)

/-- hasOverlap (src/main.ts 206-211). -/
def hasOverlap (s1 s2 : List Nat) : Bool :=
  s1.any (fun i => s2.contains i)

/-- canSimpleMerge (src/main.ts 185-192). -/
def canSimpleMerge (localLines remoteLines : List String) : Bool :=
  !hasOverlap (findChangedLines localLines) (findChangedLines remoteLines)

/-- performSimpleMerge (src/main.ts 213-224): append each remote line that
is non-blank and not already present in the accumulated merged list. -/
def performSimpleMerge (localLines remoteLines : List String) : List String :=
  remoteLines.foldl
    (fun merged line =>
      if nonBlank line && !(merged.contains line) then merged ++ [line] else merged)
    localLines

/-- threeWayMerge (src/main.ts 163-183).  Returns none where the source
returns null (merge declared impossible). -/
def threeWayMerge (localV remoteV : String) : Option String :=
  let localLines := splitLines localV
  let remoteLines := splitLines remoteV
  if localLines.length = 0 || (localLines.length = 1 && localLines.getD 0 "" = "") then
    some remoteV
  else if remoteLines.length = 0 || (remoteLines.length = 1 && remoteLines.getD 0 "" = "") then
    some localV
  else if canSimpleMerge localLines remoteLines then
    some (joinWith (String.mk ['\n']) (performSimpleMerge localLines remoteLines))
  else
    none

/-! ## Vault state for the ConflictResolver strategies (src/main.ts 21-161).

The Obsidian vault is a table from file path to content.  vault.create
throws when the path already exists (modelled as a deterministic failure);
vault.modify can fail with an I/O error, modelled by an explicit fault
trace: each modify call consumes one boolean, true meaning the call threw.
getAbstractFileByPath followed by an instanceof TFile test is mapGet. -/

structure FxState where
  vault : List (String × String)
  faults : List Bool
deriving DecidableEq

/-- app.vault.modify: the returned Bool is true when the call threw; a
throwing call consumes its fault marker and leaves the vault unchanged. -/
def vaultModify (fx : FxState) (p c : String) : FxState × Bool :=
  match fx.faults with
  | [] => ({ fx with vault := mapSet fx.vault p c }, false)
  | b :: rest =>
    if b then ({ fx with faults := rest }, true)
    else ({ vault := mapSet fx.vault p c, faults := rest }, false)

/-- app.vault.create: throws exactly when the path already exists. -/
def vaultCreate (fx : FxState) (p c : String) : FxState × Bool :=
  if (mapGet fx.vault p).isSome then (fx, true)
  else ({ fx with vault := fx.vault ++ [(p, c)] }, false)

/-- applyRemoteVersion (src/main.ts 156-161): modify the canonical file
with the remote version only when the path resolves to a file. -/
def applyRemoteVersion (fx : FxState) (c : ConflictInfo) : FxState × Bool :=
  if (mapGet fx.vault c.filePath).isSome then vaultModify fx c.filePath c.remoteVersion
  else (fx, false)

/-- Backup file name name.local-[timestamp].ext built by
handleUnresolvableConflict (src/main.ts 125-130) from filePath.split with
separator dot, joining all but the last piece back and keeping the last
piece as the extension. -/
def localBackupPath (filePath ts : String) : String :=
  let parts := splitOnCharS '.' filePath
  joinWith "." parts.dropLast ++ ".local-" ++ ts ++ "." ++ parts.getLastD ""

/-- Backup file name name.remote-[timestamp].ext (src/main.ts 131). -/
def remoteBackupPath (filePath ts : String) : String :=
  let parts := splitOnCharS '.' filePath
  joinWith "." parts.dropLast ++ ".remote-" ++ ts ++ "." ++ parts.getLastD ""

/-- handleUnresolvableConflict (src/main.ts 120-154): create the local
backup, apply the remote version to the canonical path, create the remote
backup; any throw is caught and yields false, keeping whatever effects were
already applied.  The timestamp string ts stands for the sanitized ISO
timestamp computed at line 125. -/
def handleUnresolvableConflict (fx : FxState) (c : ConflictInfo) (ts : String) : FxState × Bool :=
  let lb := localBackupPath c.filePath ts
  let rb := remoteBackupPath c.filePath ts
  let r1 := vaultCreate fx lb c.localVersion
  if r1.2 then (r1.1, false)
  else
    let r2 := applyRemoteVersion r1.1 c
    if r2.2 then (r2.1, false)
    else
      let r3 := vaultCreate r2.1 rb c.remoteVersion
      if r3.2 then (r3.1, false)
      else (r3.1, true)

/-- Timestamp fallback inside autoResolveConflict (src/main.ts 57-64),
with the surrounding try/catch: a throw from applyRemoteVersion falls back
to handleUnresolvableConflict. -/
def autoTimestampStep (fx : FxState) (c : ConflictInfo) (ts : String) : FxState × Bool :=
  if c.localTimestamp < c.remoteTimestamp then
    let r := applyRemoteVersion fx c
    if r.2 then handleUnresolvableConflict r.1 c ts
    else (r.1, true)
  else (fx, true)

/-- autoResolveConflict (src/main.ts 40-69): for content conflicts try the
heuristic merge and write the merged text; when the merge is impossible or
the canonical path is not a file, fall through to the timestamp rule; any
throw is caught and routed to handleUnresolvableConflict. -/
def autoResolveConflict (fx : FxState) (c : ConflictInfo) (ts : String) : FxState × Bool :=
  if c.type = "content" then
    match threeWayMerge c.localVersion c.remoteVersion with
    | some merged =>
      if (mapGet fx.vault c.filePath).isSome then
        let r := vaultModify fx c.filePath merged
        if r.2 then handleUnresolvableConflict r.1 c ts
        else (r.1, true)
      else autoTimestampStep fx c ts
    | none => autoTimestampStep fx c ts
  else autoTimestampStep fx c ts

/-- manualResolveConflict (src/main.ts 71-114) with the user choice passed
in; a throw inside the switch is caught and resolves false (it does not
fall back to the backup handler), and the backup choice resolves true
regardless of the backup handler result. -/
def manualResolveConflict (fx : FxState) (c : ConflictInfo) (ts choice : String) : FxState × Bool :=
  if choice = "keepLocal" then (fx, true)
  else if choice = "keepRemote" then
    let r := applyRemoteVersion fx c
    if r.2 then (r.1, false) else (r.1, true)
  else if choice = "merge" then
    match threeWayMerge c.localVersion c.remoteVersion with
    | some merged =>
      if (mapGet fx.vault c.filePath).isSome then
        let r := vaultModify fx c.filePath merged
        if r.2 then (r.1, false) else (r.1, true)
      else (fx, false)
    | none => (fx, false)
  else if choice = "backup" then
    let r := handleUnresolvableConflict fx c ts
    (r.1, true)
  else (fx, false)

/-- resolveConflict (src/main.ts 21-38): unresolvable conflicts go to the
backup handler; otherwise dispatch on the conflictResolution policy, with
backupResolveConflict (src/main.ts 116-118) delegating to
handleUnresolvableConflict and unknown policies falling back to auto. -/
def resolveConflict (policy : String) (fx : FxState) (c : ConflictInfo) (ts choice : String) : FxState × Bool :=
  if !c.isResolvable then handleUnresolvableConflict fx c ts
  else if policy = "auto" then autoResolveConflict fx c ts
  else if policy = "manual" then manualResolveConflict fx c ts choice
  else if policy = "backup" then handleUnresolvableConflict fx c ts
  else autoResolveConflict fx c ts

/-! ## OfflineOperationManager (src/main.ts 230-404).

Operations are replayed against the vault file tree; folders live in a
separate list, matching getAbstractFileByPath resolving both files and
folders while instanceof TFile selects files only. -/

inductive OpType where
  | create
  | delete
  | rename
  | move
  | createFolder
  | deleteFolder
deriving DecidableEq

structure OfflineOperation where
  id : String
  type : OpType
  path : String
  newPath : Option String
  content : Option String
  timestamp : Nat
  userId : String
deriving DecidableEq

structure VaultFs where
  files : List (String × String)
  folders : List String
deriving DecidableEq

/-- getAbstractFileByPath resolves to something (file or folder). -/
def fsExists (v : VaultFs) (p : String) : Bool :=
  (mapGet v.files p).isSome || v.folders.contains p

def fsRemoveFile (files : List (String × String)) (p : String) : List (String × String) :=
  files.filter (fun e => !(e.1 == p))

/-- processOperation (src/main.ts 300-378).  The returned Bool is the
success flag: false halts the replay loop.  A create whose target already
exists and a delete whose target is gone return true without touching the
vault (treated as already synchronized); a rename or move without a
newPath returns false. -/
def processOperation (v : VaultFs) (op : OfflineOperation) : VaultFs × Bool :=
  match op.type with
  | .create =>
    if fsExists v op.path then (v, true)
    else ({ v with files := v.files ++ [(op.path, op.content.getD "")] }, true)
  | .delete =>
    match mapGet v.files op.path with
    | some _ => ({ v with files := fsRemoveFile v.files op.path }, true)
    | none => (v, true)
  | .rename =>
    match op.newPath with
    | none => (v, false)
    | some np =>
      match mapGet v.files op.path with
      | some content => ({ v with files := fsRemoveFile v.files op.path ++ [(np, content)] }, true)
      | none => (v, true)
  | .move =>
    match op.newPath with
    | none => (v, false)
    | some np =>
      match mapGet v.files op.path with
      | some content => ({ v with files := fsRemoveFile v.files op.path ++ [(np, content)] }, true)
      | none => (v, true)
  | .createFolder =>
    if fsExists v op.path then (v, true)
    else ({ v with folders := v.folders ++ [op.path] }, true)
  | .deleteFolder =>
    if fsExists v op.path then
      ({ files := fsRemoveFile v.files op.path, folders := v.folders.filter (fun f => !(f == op.path)) }, true)
    else (v, true)

/-- The sort at src/main.ts 272: operationQueue.sort by timestamp
(JavaScript sort is stable, as is mergeSort). -/
def sortOps (q : List OfflineOperation) : List OfflineOperation :=
  q.mergeSort (fun a b => decide (a.timestamp ≤ b.timestamp))

/-- The replay loop of processQueue (src/main.ts 276-289): process each
operation in order, collecting the ids of the successfully processed ones,
and stop at the first failure. -/
def processLoop (v : VaultFs) : List OfflineOperation → VaultFs × List String
  | [] => (v, [])
  | op :: rest =>
    let r := processOperation v op
    if r.2 then
      let rec1 := processLoop r.1 rest
      (rec1.1, op.id :: rec1.2)
    else (r.1, [])

/-- processQueue (src/main.ts 266-298): sort by timestamp, run the replay
loop, then keep exactly the operations whose id was not processed. -/
def processQueue (v : VaultFs) (q : List OfflineOperation) : VaultFs × List OfflineOperation :=
  let s := sortOps q
  let r := processLoop v s
  (r.1, s.filter (fun op => !(r.2.contains op.id)))

/-- Specification-level replay: process the sorted queue one operation at
a time and halt at the first failure, leaving the failed operation and
everything after it queued. -/
def replay (v : VaultFs) : List OfflineOperation → VaultFs × List OfflineOperation
  | [] => (v, [])
  | op :: rest =>
    let r := processOperation v op
    if r.2 then replay r.1 rest
    else (r.1, op :: rest)

structure OfflineMgrState where
  queue : List OfflineOperation
  isOnline : Bool
deriving DecidableEq

/-- setOnlineStatus (src/main.ts 242-249): on a transition from offline to
online with a non-empty queue, run processQueue against the vault. -/
def setOnlineStatus (m : OfflineMgrState) (v : VaultFs) (online : Bool) : OfflineMgrState × VaultFs :=
  let wasOffline := !m.isOnline
  let m1 : OfflineMgrState := { m with isOnline := online }
  if online && wasOffline && !m1.queue.isEmpty then
    let r := processQueue v m1.queue
    ({ m1 with queue := r.2 }, r.1)
  else (m1, v)

/-! ## SecurityValidator (src/server/monitor.js 452-735).

validateVaultId and validateUserId check emptiness, length and the
character-class regexes, then sanitize with trim and a character filter
(an identity on strings that already passed the regex). -/

def isVaultIdChar (c : Char) : Bool :=
  c.isAlphanum || c = '-' || c = '_'

def isUserIdChar (c : Char) : Bool :=
  c.isAlphanum || c = '-' || c = '_' || c = '.' || c = '@'

/-- JavaScript str.trim() on the character list. -/
def charTrim (l : List Char) : List Char :=
  ((l.dropWhile Char.isWhitespace).reverse.dropWhile Char.isWhitespace).reverse

/-- The regex test of VAULT_ID_REGEX: one to 128 characters, all in the
class letters, digits, hyphen, underscore. -/
def vaultIdRegexTest (s : String) : Bool :=
  1 ≤ s.length && s.length ≤ 128 && s.data.all isVaultIdChar

/-- The regex test of USER_ID_REGEX: one to 64 characters, all in the
class letters, digits, hyphen, underscore, dot, at sign. -/
def userIdRegexTest (s : String) : Bool :=
  1 ≤ s.length && s.length ≤ 64 && s.data.all isUserIdChar

/-- validateVaultId (src/server/monitor.js 473-490) on a string argument:
none models the JavaScript null result. -/
def validateVaultIdStr (s : String) : Option String :=
  if s = "" then none
  else if 128 < s.length then none
  else if vaultIdRegexTest s then
    some (String.mk ((charTrim s.data).filter isVaultIdChar))
  else none

/-- validateUserId (src/server/monitor.js 497-514) on a string argument;
a falsy (empty) argument yields the anonymous default. -/
def validateUserIdStr (s : String) : Option String :=
  if s = "" then some "anonymous"
  else if 64 < s.length then none
  else if userIdRegexTest s then
    some (String.mk ((charTrim s.data).filter isUserIdChar))
  else none

/-- validateUrlParams for vaultId (src/server/monitor.js 621-623): an
absent query parameter is null. -/
def validateVaultIdParam : Option String → Option String
  | none => none
  | some s => validateVaultIdStr s

/-- validateUrlParams for userId (src/server/monitor.js 625-627). -/
def validateUserIdParam : Option String → Option String
  | none => some "anonymous"
  | some s => validateUserIdStr s

/-! ## Rate limiting (SecurityValidator.checkRateLimit,
src/server/monitor.js 693-734). -/

structure RLRecord where
  count : Nat
  resetTime : Nat
  violations : Nat
deriving DecidableEq

inductive RLOutcome where
  | allowed (remaining resetTime : Nat)
  | rejected (retryAfter violations : Nat)
deriving DecidableEq

def RLOutcome.isAllowed : RLOutcome → Bool
  | .allowed _ _ => true
  | .rejected _ _ => false

/-- checkRateLimit: fetch or initialize the record for the identifier,
reset the window when expired (decaying the violation counter by one, not
below zero), then either reject with exponential backoff capped at a
32-fold multiplier or count the request. -/
def checkRateLimit (m : List (String × RLRecord)) (id : String)
    (maxRequests windowMs now : Nat) : List (String × RLRecord) × RLOutcome :=
  let record0 := (mapGet m id).getD { count := 0, resetTime := now + windowMs, violations := 0 }
  let record1 :=
    if record0.resetTime ≤ now then
      { count := 0, resetTime := now + windowMs, violations := record0.violations - 1 }
    else record0
  if maxRequests ≤ record1.count then
    let record2 := { record1 with violations := record1.violations + 1 }
    let retryAfter := windowMs * min (2 ^ record2.violations) 32
    (mapSet m id record2, .rejected retryAfter record2.violations)
  else
    let record2 := { record1 with count := record1.count + 1 }
    (mapSet m id record2, .allowed (maxRequests - record2.count) record2.resetTime)

/-- A sequence of n checkRateLimit calls for one identifier, all at time t;
the second component is the outcome of the last call. -/
def rlCalls (m : List (String × RLRecord)) (id : String) (maxRequests windowMs t : Nat) :
    Nat → List (String × RLRecord) × Option RLOutcome
  | 0 => (m, none)
  | n + 1 =>
    let prev := rlCalls m id maxRequests windowMs t n
    let r := checkRateLimit prev.1 id maxRequests windowMs t
    (r.1, some r.2)

/-! ## VaultManager and the connection handler (src/server/server.js
25-194 and 231-417). -/

structure VaultRecord where
  owner : String
  members : List String
  permissions : List (String × String)
  createdAt : Nat
deriving DecidableEq

structure SessionInfo where
  vaultId : String
  userId : String
  lastActivity : Nat
  ipAddress : String
  createdAt : Nat
deriving DecidableEq

structure ServerState where
  vaults : List (String × VaultRecord)
  sessions : List (String × SessionInfo)
  connectionCount : List (String × Nat)
  ipRateLimits : List (String × RLRecord)
  connRateLimits : List (String × RLRecord)
deriving DecidableEq

/-- registerVault (src/server/server.js 73-90): validate both ids, then
create the vault record only when the vault id is not yet present; an
existing vault is left untouched and the call still returns true. -/
def registerVault (st : ServerState) (vaultId ownerId : String) (now : Nat) : ServerState × Bool :=
  match validateVaultIdStr vaultId, validateUserIdStr ownerId with
  | some vv, some vo =>
    if (mapGet st.vaults vv).isSome then (st, true)
    else
      ({ st with vaults := st.vaults ++
          [(vv, { owner := vo, members := [vo], permissions := [(vo, "owner")], createdAt := now })] },
       true)
  | _, _ => (st, false)

/-- registerSession (src/server/server.js 133-149). -/
def registerSession (st : ServerState) (connId vaultId userId ip : String) (now : Nat) :
    ServerState × Bool :=
  match validateVaultIdStr vaultId, validateUserIdStr userId with
  | some vv, some vu =>
    let info : SessionInfo :=
      { vaultId := vv, userId := vu, lastActivity := now, ipAddress := ip, createdAt := now }
    ({ st with sessions := mapSet st.sessions connId info }, true)
  | _, _ => (st, false)

/-- checkConnectionLimit (src/server/server.js 56-59): at most 50
connections per IP. -/
def checkConnectionLimit (st : ServerState) (ip : String) : Bool :=
  decide (((mapGet st.connectionCount ip).getD 0) < 50)

def incrementConnectionCount (st : ServerState) (ip : String) : ServerState :=
  { st with connectionCount :=
      mapSet st.connectionCount ip (((mapGet st.connectionCount ip).getD 0) + 1) }

/-- VaultManager.checkRateLimit (src/server/server.js 36-53): pick the
per-category limit and the map (connection limits are keyed by IP, the
rest by connection id). -/
def vmCheckRateLimit (st : ServerState) (identifier ty : String) (now : Nat) :
    ServerState × RLOutcome :=
  let lim : Nat × Nat :=
    if ty = "connection" then (5, 60000)
    else if ty = "message" then (100, 60000)
    else if ty = "auth" then (3, 60000)
    else (10, 1000)
  if ty = "connection" then
    let r := checkRateLimit st.ipRateLimits identifier lim.1 lim.2 now
    ({ st with ipRateLimits := r.1 }, r.2)
  else
    let r := checkRateLimit st.connRateLimits identifier lim.1 lim.2 now
    ({ st with connRateLimits := r.1 }, r.2)

/-- Inputs of one inbound WebSocket connection.  Origin and token
validation results are boolean inputs here: validateOrigin and
validateToken live outside the claims under study and depend on
environment configuration. -/
structure ConnRequest where
  vaultIdParam : Option String
  userIdParam : Option String
  originEnabled : Bool
  originOk : Bool
  authRequired : Bool
  tokenOk : Bool
  connId : String
  ip : String
deriving DecidableEq

inductive ConnOutcome where
  | closed (code : Nat) (reason : String)
  | accepted (connId : String)
deriving DecidableEq

/-- Parameter validation and registration tail of the connection handler
(src/server/server.js 284-323). -/
def handleConnectionParams (st : ServerState) (r : ConnRequest) (now : Nat)
    (vaultId userId : Option String) : ServerState × ConnOutcome :=
  match vaultId with
  | none => (st, .closed 1008 "Invalid vault ID")
  | some vv =>
    match userId with
    | none => (st, .closed 1008 "Invalid user ID")
    | some vu =>
      let rv := registerVault st vv vu now
      if !rv.2 then (rv.1, .closed 1008 "Invalid vault or user parameters")
      else
        let rs := registerSession rv.1 r.connId vv vu r.ip now
        if !rs.2 then (rs.1, .closed 1008 "Failed to create session")
        else (incrementConnectionCount rs.1 r.ip, .accepted r.connId)

/-- The connection handler (src/server/server.js 231-323): connection
limit and connection rate limit per IP, origin validation, parameter
validation, auth rate limit and token check, then registration of the
vault and the session and the increment of the per-IP connection count. -/
def handleConnection (st : ServerState) (r : ConnRequest) (now : Nat) : ServerState × ConnOutcome :=
  if !checkConnectionLimit st r.ip then
    (st, .closed 1008 "Too many connections from this IP")
  else
    let cr := vmCheckRateLimit st r.ip "connection" now
    if !cr.2.isAllowed then (cr.1, .closed 1008 "Rate limit exceeded")
    else if r.originEnabled && !r.originOk then (cr.1, .closed 1008 "Invalid origin")
    else
      let vaultId := validateVaultIdParam r.vaultIdParam
      let userId := validateUserIdParam r.userIdParam
      if r.authRequired then
        let ar := vmCheckRateLimit cr.1 r.ip "auth" now
        if !ar.2.isAllowed then (ar.1, .closed 1008 "Auth rate limit exceeded")
        else if !r.tokenOk then (ar.1, .closed 1008 "Invalid token")
        else handleConnectionParams ar.1 r now vaultId userId
      else handleConnectionParams cr.1 r now vaultId userId

/-! ## Connection supervision on the client (src/main.ts 610-674 and
802-832).  The fields mirror the plugin instance fields used by the status
handler and the reconnect scheduler; retryScheduled holds the delay of the
pending retry timer when one is set. -/

structure ConnState where
  connectionStatus : String
  isOnline : Bool
  connectionRetries : Nat
  maxRetries : Nat
  retryDelay : Nat
  retryScheduled : Option Nat
  statusText : String
  isCleaningUp : Bool
  managerOnline : Bool
  queueSize : Nat
deriving DecidableEq

/-- scheduleReconnect (src/main.ts 802-832): at or beyond the retry limit,
surface the terminal connection failed text and schedule nothing;
otherwise compute the exponential delay from the current attempt counter,
increment the counter and schedule the timer (replacing any pending one). -/
def scheduleReconnect (s : ConnState) : ConnState :=
  if s.isCleaningUp || s.maxRetries ≤ s.connectionRetries then
    if s.maxRetries ≤ s.connectionRetries then
      { s with statusText := "ShadowLink: connection failed" }
    else s
  else
    let delay := s.retryDelay * 2 ^ s.connectionRetries
    { s with connectionRetries := s.connectionRetries + 1,
             retryScheduled := some delay,
             statusText := "ShadowLink: reconnecting (" ++ toString (s.connectionRetries + 1)
               ++ "/" ++ toString s.maxRetries ++ ")" }

/-- statusHandler (src/main.ts 610-674).  The timer side effects
(scheduleImmediateSync, performPeriodicSyncCheck) have no bearing on the
connection-state fields and are omitted; the offline manager is
represented by its online flag and queue size. -/
def statusHandler (s : ConnState) (status : String) : ConnState :=
  let wasOnline := s.isOnline
  let previousStatus := s.connectionStatus
  let s1 :=
    if status = "connected" then
      { s with connectionStatus := "connected", isOnline := true,
               connectionRetries := 0, retryScheduled := none,
               statusText := "ShadowLink: connected" }
    else if status = "disconnected" then
      if s.connectionStatus ≠ "disconnected" then
        let s2 := { s with connectionStatus := "disconnected", isOnline := false,
                           statusText := "ShadowLink: disconnected" }
        if previousStatus = "connected" || previousStatus = "connecting" then
          scheduleReconnect s2
        else s2
      else s
    else if status = "connecting" then
      if s.connectionStatus ≠ "connecting" then
        { s with connectionStatus := "connecting", isOnline := false,
                 statusText := "ShadowLink: connecting..." }
      else s
    else { s with statusText := "ShadowLink: " ++ status }
  let s3 := if wasOnline ≠ s1.isOnline then { s1 with managerOnline := s1.isOnline } else s1
  if !s3.isOnline && decide (0 < s3.queueSize) then
    { s3 with statusText := "ShadowLink: offline (" ++ toString s3.queueSize ++ " queued)" }
  else s3

/-! ## Vault metadata reconciliation (syncLocalWithMetadata,
src/main.ts 965-1075, and mergeVaultContents, src/main.ts 1080-1116).

The replicated paths array, the local file list, the lastSyncTimestamps
map (keyed by strings such as delete: followed by the path) and the stat
results feed a pure function from the state observed at sync time to the
new metadata list, the new local file list and the conflicts handed to the
ConflictResolver. -/

structure SyncInput where
  remotePaths : List String
  localFiles : List String
  syncStamps : List (String × Nat)
  ctimes : List (String × Nat)
  mtimes : List (String × Nat)
deriving DecidableEq

structure SyncOutput where
  remotePaths : List String
  localFiles : List String
  conflicts : List ConflictInfo
deriving DecidableEq

/-- Iteration order of a JS Set built from a list: first occurrences. -/
def dedupAux (seen : List String) : List String → List String
  | [] => []
  | x :: rest => if seen.contains x then dedupAux seen rest else x :: dedupAux (x :: seen) rest

def dedup (l : List String) : List String :=
  dedupAux [] l

/-- mergeVaultContents (src/main.ts 1080-1116): push local-only paths onto
the shared array, create remote-only paths locally, raise no conflicts. -/
def mergeVaultContents (st : SyncInput) (remote localSet : List String) : SyncOutput :=
  let localOnly := localSet.filter (fun f => !(remote.contains f))
  let remoteOnly := remote.filter (fun f => !(localSet.contains f))
  { remotePaths := st.remotePaths ++ localOnly,
    localFiles := st.localFiles ++ remoteOnly,
    conflicts := [] }

/-- The branch of syncLocalWithMetadata at src/main.ts 1008-1056 (reached
only when neither side has content): for remote paths missing locally,
check the recent-delete grace stamp and either raise a structure conflict
or create the file; for local paths missing remotely, check the creation
time against the 60 second grace window and either push the path or raise
a structure conflict.  Falsy (zero) stamps are treated as absent, as in
JavaScript. -/
def syncElseBranch (now : Nat) (st : SyncInput) (remote localSet : List String) : SyncOutput :=
  let step1 := remote.foldl
    (fun (acc : List String × List ConflictInfo) p =>
      if localSet.contains p then acc
      else
        match mapGet st.syncStamps ("delete:" ++ p) with
        | some td =>
          if td ≠ 0 && now - td < 60000 then
            (acc.1, acc.2 ++ [{ type := "structure", filePath := p, localVersion := "",
                                remoteVersion := "exists", localTimestamp := td,
                                remoteTimestamp := now, isResolvable := true,
                                suggestedResolution := "keepRemote" }])
          else (acc.1 ++ [p], acc.2)
        | none => (acc.1 ++ [p], acc.2))
    (st.localFiles, [])
  let step2 := localSet.foldl
    (fun (acc : List String × List ConflictInfo) p =>
      if remote.contains p then acc
      else
        match mapGet st.ctimes p with
        | some ct =>
          if now - ct < 60000 then (acc.1 ++ [p], acc.2)
          else
            (acc.1, acc.2 ++ [{ type := "structure", filePath := p, localVersion := "exists",
                                remoteVersion := "", localTimestamp :=
                                  (match mapGet st.mtimes p with
                                   | some mt => if mt ≠ 0 then mt else now
                                   | none => now),
                                remoteTimestamp := 0, isResolvable := true,
                                suggestedResolution := "keepLocal" }])
        | none =>
          (acc.1, acc.2 ++ [{ type := "structure", filePath := p, localVersion := "exists",
                              remoteVersion := "", localTimestamp :=
                                (match mapGet st.mtimes p with
                                 | some mt => if mt ≠ 0 then mt else now
                                 | none => now),
                              remoteTimestamp := 0, isResolvable := true,
                              suggestedResolution := "keepLocal" }])
    )
    ([], [])
  { remotePaths := st.remotePaths ++ step2.1,
    localFiles := step1.1,
    conflicts := step1.2 ++ step2.2 }

/-- syncLocalWithMetadata (src/main.ts 965-1075): dispatch on whether the
remote metadata and the local vault have content.  Both non-empty goes to
mergeVaultContents; local-only content pushes every local path; remote-only
content creates every remote path locally; the remaining branch (both
empty) is the one holding the grace-window logic. -/
def syncLocalWithMetadata (now : Nat) (st : SyncInput) : SyncOutput :=
  let remote := dedup st.remotePaths
  let localSet := dedup st.localFiles
  let hasRemote := !remote.isEmpty
  let hasLocal := !localSet.isEmpty
  if hasRemote && hasLocal then mergeVaultContents st remote localSet
  else if hasLocal && !hasRemote then
    { remotePaths := st.remotePaths ++ localSet, localFiles := st.localFiles, conflicts := [] }
  else if hasRemote && !hasLocal then
    { remotePaths := st.remotePaths, localFiles := st.localFiles ++ remote, conflicts := [] }
  else syncElseBranch now st remote localSet

/-! ## The document switch as an effect trace (cleanupCurrent,
src/main.ts 896-915, and handleFileOpenInternal, src/main.ts 1580-1729).

Each constructor is one primitive call the code performs on the session
objects; clearLocalAwareness stands for awareness.setLocalState(null) on
the provider of the named document, the call that the repository docs
(src/LIVE_SYNC_FIXES.md) require in cleanupCurrent. -/

inductive ClientAction where
  | getLocalAwareness (doc : String)
  | clearLocalAwareness (doc : String)
  | destroyProvider (doc : String)
  | destroyIdb (doc : String)
  | destroyDoc (doc : String)
  | createDoc (doc : String)
  | createIdb (doc : String)
  | createProvider (doc : String)
  | setAwarenessField (doc : String)
deriving DecidableEq

def isClearLocalAwareness : ClientAction → Bool
  | .clearLocalAwareness _ => true
  | _ => false

/-- cleanupCurrent (src/main.ts 896-915): when not in the unload path,
destroy the provider, the IndexedDB persistence and the document of the
current file (the handler detach branches are dead because they require
isCleaningUp after an early return on isCleaningUp). -/
def cleanupCurrentTrace (isCleaningUp : Bool) (current : Option String) : List ClientAction :=
  if isCleaningUp then []
  else
    match current with
    | none => []
    | some d => [.destroyProvider d, .destroyIdb d, .destroyDoc d]

/-- handleFileOpenInternal (src/main.ts 1580-1729) restricted to the calls
on session objects: read the outgoing awareness state to preserve it, run
cleanupCurrent, then create the new document, persistence and provider and
set the merged awareness user field on the new provider. -/
def handleFileOpenInternalTrace (isCleaningUp : Bool) (current : Option String)
    (file : Option String) (viewOk : Bool) : List ClientAction :=
  match file, viewOk with
  | none, _ => cleanupCurrentTrace isCleaningUp current
  | some _, false => cleanupCurrentTrace isCleaningUp current
  | some f, true =>
    if current = some f then []
    else
      (match current with
       | some d => [ClientAction.getLocalAwareness d]
       | none => [])
      ++ cleanupCurrentTrace isCleaningUp current
      ++ [.createDoc f, .createIdb f, .createProvider f, .setAwarenessField f]

/-! ## Helper lemmas about the association-list maps. -/

theorem mapGet_mapSet_self {α : Type} (m : List (String × α)) (k : String) (v : α) :
    mapGet (mapSet m k v) k = some v := by
  induction m with
  | nil => simp [mapSet, mapGet]
  | cons e rest ih =>
    by_cases h : e.1 = k
    · simp [mapSet, mapGet, h]
    · simp [mapSet, mapGet, h, ih]

theorem mapGet_mapSet_ne {α : Type} (m : List (String × α)) (k k1 : String) (v : α)
    (h : k ≠ k1) : mapGet (mapSet m k v) k1 = mapGet m k1 := by
  induction m with
  | nil => simp [mapSet, mapGet, h]
  | cons e rest ih =>
    by_cases he : e.1 = k
    · simp [mapSet, mapGet, he, h]
    · by_cases he1 : e.1 = k1
      · simp [mapSet, mapGet, he, he1, Ne.symm h]
      · simp [mapSet, mapGet, he, he1, ih]

theorem mapGet_append_some {α : Type} (m l : List (String × α)) (k : String) (x : α)
    (h : mapGet m k = some x) : mapGet (m ++ l) k = some x := by
  induction m with
  | nil => simp [mapGet] at h
  | cons e rest ih =>
    by_cases he : e.1 = k
    · simpa [mapGet, he] using h
    · simp [mapGet, he] at h ⊢
      exact ih h

theorem mapGet_append_none {α : Type} (m l : List (String × α)) (k : String)
    (h : mapGet m k = none) : mapGet (m ++ l) k = mapGet l k := by
  induction m with
  | nil => simp
  | cons e rest ih =>
    by_cases he : e.1 = k
    · simp [mapGet, he] at h
    · simp [mapGet, he] at h ⊢
      exact ih h

theorem mapGet_isSome_append {α : Type} (m l : List (String × α)) (k : String)
    (h : (mapGet m k).isSome = true) : (mapGet (m ++ l) k).isSome = true := by
  obtain ⟨x, hx⟩ := Option.isSome_iff_exists.mp h
  simp [mapGet_append_some m l k x hx]

/-- C1 counterexample: on localVersion line1 then line2 and remoteVersion
line1 then line3, threeWayMerge does not succeed: it returns none, so the
merged text claimed by the specification does not exist. -/
theorem c1_counterexample :
    threeWayMerge "line1\nline2" "line1\nline3" = none := by decide

/-- C1 (amended): for the same two versions, the heuristic marks every
non-blank line index as changed on each side, both changed-line sets are
the indices zero and one, the sets overlap, canSimpleMerge therefore
refuses the merge, and threeWayMerge returns none so that auto resolution
falls back to the timestamp rule. -/
theorem c1_heuristic_overlap :
    findChangedLines (splitLines "line1\nline2") = [0, 1]
    ∧ findChangedLines (splitLines "line1\nline3") = [0, 1]
    ∧ hasOverlap (findChangedLines (splitLines "line1\nline2"))
        (findChangedLines (splitLines "line1\nline3")) = true
    ∧ canSimpleMerge (splitLines "line1\nline2") (splitLines "line1\nline3") = false
    ∧ threeWayMerge "line1\nline2" "line1\nline3" = none := by decide

/-- C7: syncLocalWithMetadata never hands any conflict to the
ConflictResolver: the branch containing the grace-window checks and the
structure-conflict constructors only runs when both the remote metadata
and the local file list are empty, where its loops iterate over nothing.
In particular, at the failing input of a single local file old.md created
far outside the 60 second grace window and an empty remote list, the path
is pushed to the shared metadata unconditionally and the conflict list is
empty, where the claim requires an escalated structure conflict. -/
theorem c7_no_structure_conflict :
    (∀ (now : Nat) (st : SyncInput), (syncLocalWithMetadata now st).conflicts = [])
    ∧ syncLocalWithMetadata 100000000
        { remotePaths := [], localFiles := ["old.md"], syncStamps := [],
          ctimes := [("old.md", 0)], mtimes := [("old.md", 0)] }
      = { remotePaths := ["old.md"], localFiles := ["old.md"], conflicts := [] } := by
  constructor
  · intro now st
    unfold syncLocalWithMetadata
    by_cases h1 : (dedup st.remotePaths).isEmpty <;>
      by_cases h2 : (dedup st.localFiles).isEmpty <;>
        simp_all [mergeVaultContents, syncElseBranch, List.isEmpty_iff]
  · decide

/-- C8: the document switch from A.md to B.md performed by
handleFileOpenInternal emits no clearLocalAwareness action at all (for any
inputs), while the concrete switch trace reads the outgoing awareness
state, destroys the session objects of A.md and attaches to B.md,
re-applying the preserved awareness user field there.  The explicit clear
of the local awareness record on the outgoing scope, required by the claim
and shown in src/LIVE_SYNC_FIXES.md as the needed call in cleanupCurrent,
is absent. -/
theorem c8_no_awareness_clear :
    (∀ (b : Bool) (current file : Option String) (viewOk : Bool),
      (handleFileOpenInternalTrace b current file viewOk).all
        (fun a => !isClearLocalAwareness a) = true)
    ∧ handleFileOpenInternalTrace false (some "A.md") (some "B.md") true
      = [.getLocalAwareness "A.md", .destroyProvider "A.md", .destroyIdb "A.md",
         .destroyDoc "A.md", .createDoc "B.md", .createIdb "B.md",
         .createProvider "B.md", .setAwarenessField "B.md"] := by
  constructor
  · intro b current file viewOk
    match file, viewOk with
    | none, vo =>
      cases b <;> cases current <;> simp [handleFileOpenInternalTrace, cleanupCurrentTrace,
        isClearLocalAwareness]
    | some f, false =>
      cases b <;> cases current <;> simp [handleFileOpenInternalTrace, cleanupCurrentTrace,
        isClearLocalAwareness]
    | some f, true =>
      by_cases hc : current = some f <;>
        cases b <;> rcases current with _ | d <;>
          simp_all [handleFileOpenInternalTrace, cleanupCurrentTrace, isClearLocalAwareness]
  · decide

/-- C10: registerVault is first-writer-wins and idempotent: with valid
parameters and an already registered vault id, the call returns true and
leaves the whole server state, in particular the existing vault record
with its owner, members and permissions, unchanged, whatever owner id the
later caller presents. -/
theorem c10_registerVault_first_writer_wins :
    ∀ (st : ServerState) (vaultId ownerId : String) (now : Nat) (vv vo : String)
      (rec : VaultRecord),
      validateVaultIdStr vaultId = some vv →
      validateUserIdStr ownerId = some vo →
      mapGet st.vaults vv = some rec →
      registerVault st vaultId ownerId now = (st, true)
      ∧ mapGet (registerVault st vaultId ownerId now).1.vaults vv = some rec := by
  intro st vaultId ownerId now vv vo rec h1 h2 h3
  unfold registerVault
  rw [h1, h2]
  simp [h3]

/-- C10 witness: a second registration of vault v1 by the different user
u2 returns true and keeps the record owned by u1 intact. -/
theorem c10_witness :
    validateVaultIdStr "v1" = some "v1"
    ∧ validateUserIdStr "u2" = some "u2"
    ∧ mapGet [("v1", (⟨"u1", ["u1"], [("u1", "owner")], 0⟩ : VaultRecord))] "v1"
      = some ⟨"u1", ["u1"], [("u1", "owner")], 0⟩
    ∧ (registerVault ⟨[("v1", ⟨"u1", ["u1"], [("u1", "owner")], 0⟩)], [], [], [], []⟩ "v1" "u2" 7
        = (⟨[("v1", ⟨"u1", ["u1"], [("u1", "owner")], 0⟩)], [], [], [], []⟩, true)
      ∧ mapGet (registerVault ⟨[("v1", ⟨"u1", ["u1"], [("u1", "owner")], 0⟩)], [], [], [], []⟩
          "v1" "u2" 7).1.vaults "v1"
        = some ⟨"u1", ["u1"], [("u1", "owner")], 0⟩) :=
  ⟨by decide, by decide, by decide,
   c10_registerVault_first_writer_wins _ "v1" "u2" 7 "v1" "u2" _ (by decide) (by decide) (by decide)⟩

/-! ## Step lemmas for checkRateLimit, stated on the effective record (the
stored record, or the fresh default when the identifier is unknown). -/

theorem checkRateLimit_allowed_of (m : List (String × RLRecord)) (id : String)
    (maxRequests windowMs now : Nat) (rec : RLRecord)
    (hrec : (mapGet m id).getD { count := 0, resetTime := now + windowMs, violations := 0 } = rec)
    (hno : now < rec.resetTime) (hcount : rec.count < maxRequests) :
    checkRateLimit m id maxRequests windowMs now
      = (mapSet m id { rec with count := rec.count + 1 },
         .allowed (maxRequests - (rec.count + 1)) rec.resetTime) := by
  simp only [checkRateLimit, hrec]
  rw [if_neg (by omega : ¬rec.resetTime ≤ now)]
  rw [if_neg (by omega : ¬maxRequests ≤ rec.count)]

theorem checkRateLimit_rejected_of (m : List (String × RLRecord)) (id : String)
    (maxRequests windowMs now : Nat) (rec : RLRecord)
    (hrec : (mapGet m id).getD { count := 0, resetTime := now + windowMs, violations := 0 } = rec)
    (hno : now < rec.resetTime) (hcount : maxRequests ≤ rec.count) :
    checkRateLimit m id maxRequests windowMs now
      = (mapSet m id { rec with violations := rec.violations + 1 },
         .rejected (windowMs * min (2 ^ (rec.violations + 1)) 32) (rec.violations + 1)) := by
  simp only [checkRateLimit, hrec]
  rw [if_neg (by omega : ¬rec.resetTime ≤ now)]
  rw [if_pos hcount]

theorem checkRateLimit_reset_of (m : List (String × RLRecord)) (id : String)
    (maxRequests windowMs now : Nat) (rec : RLRecord)
    (hrec : (mapGet m id).getD { count := 0, resetTime := now + windowMs, violations := 0 } = rec)
    (hexp : rec.resetTime ≤ now) (hmax : 1 ≤ maxRequests) :
    checkRateLimit m id maxRequests windowMs now
      = (mapSet m id { count := 1, resetTime := now + windowMs, violations := rec.violations - 1 },
         .allowed (maxRequests - 1) (now + windowMs)) := by
  simp only [checkRateLimit, hrec]
  rw [if_pos hexp]
  rw [if_neg (fun hc => by simp only [] at hc; omega)]

/-- C5: every request rejected inside the window increments the violation
counter of the identifier and the returned retryAfter is the window length
times the capped power of two of the new counter; the first request after
the window expires resets the window and decreases the violation counter
by exactly one, except that a zero counter stays at zero. -/
theorem c5_violation_escalation_and_decay :
    ∀ (m : List (String × RLRecord)) (id : String) (maxRequests windowMs now : Nat)
      (rec : RLRecord), mapGet m id = some rec →
      (now < rec.resetTime → maxRequests ≤ rec.count →
        checkRateLimit m id maxRequests windowMs now
          = (mapSet m id { rec with violations := rec.violations + 1 },
             .rejected (windowMs * min (2 ^ (rec.violations + 1)) 32) (rec.violations + 1)))
      ∧ (rec.resetTime ≤ now → 1 ≤ maxRequests →
        checkRateLimit m id maxRequests windowMs now
          = (mapSet m id
               { count := 1, resetTime := now + windowMs, violations := rec.violations - 1 },
             .allowed (maxRequests - 1) (now + windowMs))
        ∧ (1 ≤ rec.violations → rec.violations - 1 < rec.violations
            ∧ (rec.violations - 1) + 1 = rec.violations)
        ∧ (rec.violations = 0 → rec.violations - 1 = 0)) := by
  intro m id maxRequests windowMs now rec hrec
  constructor
  · intro hno hcount
    exact checkRateLimit_rejected_of m id maxRequests windowMs now rec (by simp [hrec]) hno hcount
  · intro hexp hmax
    refine ⟨checkRateLimit_reset_of m id maxRequests windowMs now rec (by simp [hrec]) hexp hmax,
      fun h => ⟨by omega, by omega⟩, fun h => by omega⟩

/-- C5 witness: a stored record with count 3 and violations 2 under the
limit 3 per 1000 at time 5 is rejected with the counter escalated to 3 and
retryAfter 8000; at time 10, past the reset time, the window resets and
the counter decays from 2 to exactly 1. -/
theorem c5_witness :
    mapGet [("c1", ({ count := 3, resetTime := 10, violations := 2 } : RLRecord))] "c1"
      = some { count := 3, resetTime := 10, violations := 2 }
    ∧ checkRateLimit [("c1", { count := 3, resetTime := 10, violations := 2 })] "c1" 3 1000 5
      = ([("c1", { count := 3, resetTime := 10, violations := 3 })], .rejected 8000 3)
    ∧ checkRateLimit [("c1", { count := 3, resetTime := 10, violations := 2 })] "c1" 3 1000 10
      = ([("c1", { count := 1, resetTime := 1010, violations := 1 })], .allowed 2 1010) :=
  ⟨by decide,
   by
    have h1 := (c5_violation_escalation_and_decay
      [("c1", { count := 3, resetTime := 10, violations := 2 })] "c1" 3 1000 5
      { count := 3, resetTime := 10, violations := 2 } (by decide)).1
      (by decide) (by decide)
    simpa using h1,
   by
    have h2 := ((c5_violation_escalation_and_decay
      [("c1", { count := 3, resetTime := 10, violations := 2 })] "c1" 3 1000 10
      { count := 3, resetTime := 10, violations := 2 } (by decide)).2
      (by decide) (by decide)).1
    simpa using h2⟩

/-- State of a fresh identifier after k calls within the limit: the
effective record counts k requests in the window opened at the first call,
with no violations. -/
theorem rlCalls_fresh_state (m : List (String × RLRecord)) (id : String)
    (maxRequests windowMs t : Nat) (hm : mapGet m id = none) (hw : 0 < windowMs) :
    ∀ k, k ≤ maxRequests →
      (mapGet (rlCalls m id maxRequests windowMs t k).1 id).getD
          { count := 0, resetTime := t + windowMs, violations := 0 }
        = { count := k, resetTime := t + windowMs, violations := 0 } := by
  intro k
  induction k with
  | zero => intro _; simp [rlCalls, hm]
  | succ k ih =>
    intro hk
    have hx := ih (by omega)
    have hstep := checkRateLimit_allowed_of (rlCalls m id maxRequests windowMs t k).1 id
      maxRequests windowMs t { count := k, resetTime := t + windowMs, violations := 0 }
      hx (by simp; omega) (by simp; omega)
    simp only [rlCalls, hstep]
    simp [mapGet_mapSet_self]

/-- Outcome of the k-th call of a fresh identifier, for k within the
limit: allowed. -/
theorem rlCalls_fresh_allowed (m : List (String × RLRecord)) (id : String)
    (maxRequests windowMs t : Nat) (hm : mapGet m id = none) (hw : 0 < windowMs) :
    ∀ k, 1 ≤ k → k ≤ maxRequests →
      (rlCalls m id maxRequests windowMs t k).2
        = some (.allowed (maxRequests - k) (t + windowMs)) := by
  intro k h1 h2
  obtain ⟨j, rfl⟩ : ∃ j, k = j + 1 := ⟨k - 1, by omega⟩
  have hx := rlCalls_fresh_state m id maxRequests windowMs t hm hw j (by omega)
  have hstep := checkRateLimit_allowed_of (rlCalls m id maxRequests windowMs t j).1 id
    maxRequests windowMs t { count := j, resetTime := t + windowMs, violations := 0 }
    hx (by simp; omega) (by simp; omega)
  simp only [rlCalls, hstep]

/-- State and outcome of a fresh identifier beyond the limit: the j-th
rejection inside the window escalates the violation counter to j and
returns retryAfter equal to the window multiplied by two to the j capped
at 32. -/
theorem rlCalls_fresh_over (m : List (String × RLRecord)) (id : String)
    (maxRequests windowMs t : Nat) (hm : mapGet m id = none) (hw : 0 < windowMs) :
    ∀ j, 1 ≤ j →
      (mapGet (rlCalls m id maxRequests windowMs t (maxRequests + j)).1 id).getD
          { count := 0, resetTime := t + windowMs, violations := 0 }
        = { count := maxRequests, resetTime := t + windowMs, violations := j }
      ∧ (rlCalls m id maxRequests windowMs t (maxRequests + j)).2
        = some (.rejected (windowMs * min (2 ^ j) 32) j) := by
  intro j hj
  induction j, hj using Nat.le_induction with
  | base =>
    have hx := rlCalls_fresh_state m id maxRequests windowMs t hm hw maxRequests (by omega)
    have hstep := checkRateLimit_rejected_of (rlCalls m id maxRequests windowMs t maxRequests).1
      id maxRequests windowMs t { count := maxRequests, resetTime := t + windowMs, violations := 0 }
      hx (by simp; omega) (by simp)
    simp only [rlCalls, hstep]
    simp [mapGet_mapSet_self]
  | succ j hj ih =>
    have hx := ih.1
    have hstep := checkRateLimit_rejected_of
      (rlCalls m id maxRequests windowMs t (maxRequests + j)).1 id maxRequests windowMs t
      { count := maxRequests, resetTime := t + windowMs, violations := j }
      hx (by simp; omega) (by simp)
    have harith : maxRequests + (j + 1) = (maxRequests + j) + 1 := by omega
    rw [harith]
    simp only [rlCalls, hstep]
    simp [mapGet_mapSet_self]

/-- C4 counterexample: with limit 1 per 1000 window, the fifth and the
sixth rejected request both return retryAfter 32000: once the violation
counter passes five, the backoff multiplier is capped at 32 and retryAfter
no longer strictly increases. -/
theorem c4_counterexample :
    (rlCalls [] "ip1" 1 1000 0 6).2 = some (.rejected 32000 5)
    ∧ (rlCalls [] "ip1" 1 1000 0 7).2 = some (.rejected 32000 6) := by decide

/-- C4 (amended): for a fresh identifier and a positive window, exactly
maxRequests calls inside the window are allowed, the next call is rejected
with retryAfter twice the window (positive), every further call inside the
window is rejected with retryAfter equal to the window times the capped
power of two of the rejection index, and that retryAfter strictly
increases for the first five rejections and is constant at 32 times the
window from the fifth rejection on. -/
theorem c4_rate_limit_boundary :
    ∀ (m : List (String × RLRecord)) (id : String) (maxRequests windowMs t : Nat),
      mapGet m id = none → 0 < windowMs →
      (∀ k, 1 ≤ k → k ≤ maxRequests →
        (rlCalls m id maxRequests windowMs t k).2
          = some (.allowed (maxRequests - k) (t + windowMs)))
      ∧ ((rlCalls m id maxRequests windowMs t (maxRequests + 1)).2
          = some (.rejected (windowMs * 2) 1)
        ∧ 0 < windowMs * 2)
      ∧ (∀ j, 1 ≤ j →
        (rlCalls m id maxRequests windowMs t (maxRequests + j)).2
          = some (.rejected (windowMs * min (2 ^ j) 32) j))
      ∧ (∀ j, 1 ≤ j → j ≤ 4 →
          windowMs * min (2 ^ j) 32 < windowMs * min (2 ^ (j + 1)) 32)
      ∧ (∀ j, 5 ≤ j → windowMs * min (2 ^ j) 32 = windowMs * 32) := by
  intro m id maxRequests windowMs t hm hw
  refine ⟨rlCalls_fresh_allowed m id maxRequests windowMs t hm hw, ⟨?_, by omega⟩, ?_, ?_, ?_⟩
  · have h := (rlCalls_fresh_over m id maxRequests windowMs t hm hw 1 (by omega)).2
    simpa using h
  · intro j hj
    exact (rlCalls_fresh_over m id maxRequests windowMs t hm hw j hj).2
  · intro j h1 h4
    interval_cases j <;> simp <;> omega
  · intro j h5
    have h32 : (32 : Nat) ≤ 2 ^ j := by
      calc (32 : Nat) = 2 ^ 5 := by norm_num
        _ ≤ 2 ^ j := Nat.pow_le_pow_right (by norm_num) h5
    rw [Nat.min_eq_right h32]

/-- C4 witness: the amended boundary at limit 1, window 1000, time 0: the
single allowed call, the first rejection at retryAfter 2000, and the
capped tail. -/
theorem c4_witness :
    (mapGet ([] : List (String × RLRecord)) "ip1" = none ∧ 0 < 1000)
    ∧ ((∀ k, 1 ≤ k → k ≤ 1 →
        (rlCalls [] "ip1" 1 1000 0 k).2 = some (.allowed (1 - k) (0 + 1000)))
      ∧ ((rlCalls [] "ip1" 1 1000 0 (1 + 1)).2 = some (.rejected (1000 * 2) 1) ∧ 0 < 1000 * 2)
      ∧ (∀ j, 1 ≤ j →
        (rlCalls [] "ip1" 1 1000 0 (1 + j)).2 = some (.rejected (1000 * min (2 ^ j) 32) j))
      ∧ (∀ j, 1 ≤ j → j ≤ 4 → 1000 * min (2 ^ j) 32 < 1000 * min (2 ^ (j + 1)) 32)
      ∧ (∀ j, 5 ≤ j → 1000 * min (2 ^ j) 32 = 1000 * 32)) :=
  ⟨⟨by decide, by decide⟩, c4_rate_limit_boundary [] "ip1" 1 1000 0 (by decide) (by decide)⟩

/-- C6: reconnection attempt k (counting from zero, the value of the
attempt counter when the attempt is scheduled) is scheduled after a delay
of the base retry delay times two to the k, and the counter is advanced;
the counter is reset to zero and any pending retry timer cleared on every
transition to the connected status; once the counter has reached the
maximum, scheduleReconnect schedules nothing, leaves the counter alone and
only surfaces the terminal connection failed status text. -/
theorem c6_reconnect_backoff :
    ∀ (s : ConnState),
      (s.isCleaningUp = false → s.connectionRetries < s.maxRetries →
        (scheduleReconnect s).retryScheduled
          = some (s.retryDelay * 2 ^ s.connectionRetries)
        ∧ (scheduleReconnect s).connectionRetries = s.connectionRetries + 1)
      ∧ ((statusHandler s "connected").connectionRetries = 0
        ∧ (statusHandler s "connected").retryScheduled = none)
      ∧ (s.maxRetries ≤ s.connectionRetries →
        scheduleReconnect s = { s with statusText := "ShadowLink: connection failed" }) := by
  intro s
  refine ⟨?_, ?_, ?_⟩
  · intro hclean hlt
    rw [scheduleReconnect, if_neg (by simp [hclean]; omega)]
    exact ⟨rfl, rfl⟩
  · unfold statusHandler
    cases hon : s.isOnline <;> simp [hon]
  · intro hmax
    rw [scheduleReconnect, if_pos (by simp [hmax]), if_pos (by simpa using hmax)]

/-- C6 witness: a state with two retries out of five, base delay 1000, is
scheduled at delay 4000 and advanced to three retries; the connected
transition resets the counter; a state at the maximum is only marked as
failed. -/
theorem c6_witness :
    ((scheduleReconnect ⟨"disconnected", false, 2, 5, 1000, none, "t", false, false, 0⟩).retryScheduled
        = some (1000 * 2 ^ 2)
      ∧ (scheduleReconnect ⟨"disconnected", false, 2, 5, 1000, none, "t", false, false, 0⟩).connectionRetries
        = 2 + 1)
    ∧ ((statusHandler ⟨"disconnected", false, 2, 5, 1000, some 4000, "t", false, false, 0⟩ "connected").connectionRetries = 0
      ∧ (statusHandler ⟨"disconnected", false, 2, 5, 1000, some 4000, "t", false, false, 0⟩ "connected").retryScheduled = none)
    ∧ scheduleReconnect ⟨"disconnected", false, 5, 5, 1000, none, "t", false, false, 0⟩
      = ⟨"disconnected", false, 5, 5, 1000, none, "ShadowLink: connection failed", false, false, 0⟩ :=
  ⟨(c6_reconnect_backoff ⟨"disconnected", false, 2, 5, 1000, none, "t", false, false, 0⟩).1
      (by decide) (by decide),
   (c6_reconnect_backoff ⟨"disconnected", false, 2, 5, 1000, some 4000, "t", false, false, 0⟩).2.1,
   (c6_reconnect_backoff ⟨"disconnected", false, 5, 5, 1000, none, "t", false, false, 0⟩).2.2
      (by decide)⟩

/-- C2 counterexample, two parts.  First, with the backup policy but a
canonical file that does not exist in the vault, resolution creates both
backups and returns true, yet the remote version is never written to the
canonical path (applyRemoteVersion silently does nothing).  Second, when
the manual strategy throws (here: the keep-remote write faults), the
resolver returns false and creates no backups, instead of falling back to
the backup handler as the claim requires of a throwing strategy. -/
theorem c2_counterexample :
    (resolveConflict "backup" ⟨[], []⟩
        ⟨"content", "note.md", "L", "R", 1, 2, true, "merge"⟩ "T" ""
      = (⟨[("note.local-T.md", "L"), ("note.remote-T.md", "R")], []⟩, true)
      ∧ mapGet (resolveConflict "backup" ⟨[], []⟩
          ⟨"content", "note.md", "L", "R", 1, 2, true, "merge"⟩ "T" "").1.vault "note.md"
        = none)
    ∧ resolveConflict "manual" ⟨[("note.md", "L")], [true]⟩
        ⟨"structure", "note.md", "L", "R", 1, 2, true, "keepRemote"⟩ "T" "keepRemote"
      = (⟨[("note.md", "L")], []⟩, false) := by decide

/-- C2 (amended): the backup policy and an unresolvable conflict both
route to the backup handler, and so does a throw inside the auto strategy;
the backup handler, when the backup paths are fresh, the canonical file
exists and no write faults, creates name.local-ts.ext with the local
version and name.remote-ts.ext with the remote version, writes the remote
version to the canonical path and returns true.  A missing canonical file
is left unwritten (first counterexample part), and a throwing manual
strategy returns false without backups (second part). -/
theorem c2_backup_fallback :
    ∀ (policy : String) (fx : FxState) (c : ConflictInfo) (ts choice : String),
      ((policy = "backup" ∨ c.isResolvable = false) →
        resolveConflict policy fx c ts choice = handleUnresolvableConflict fx c ts)
      ∧ (mapGet fx.vault (localBackupPath c.filePath ts) = none →
        mapGet fx.vault (remoteBackupPath c.filePath ts) = none →
        localBackupPath c.filePath ts ≠ remoteBackupPath c.filePath ts →
        (mapGet fx.vault c.filePath).isSome = true →
        fx.faults = [] →
        (handleUnresolvableConflict fx c ts).2 = true
        ∧ mapGet (handleUnresolvableConflict fx c ts).1.vault (localBackupPath c.filePath ts)
          = some c.localVersion
        ∧ mapGet (handleUnresolvableConflict fx c ts).1.vault (remoteBackupPath c.filePath ts)
          = some c.remoteVersion
        ∧ mapGet (handleUnresolvableConflict fx c ts).1.vault c.filePath
          = some c.remoteVersion)
      ∧ (∀ (merged : String) (rest : List Bool), c.type = "content" →
        threeWayMerge c.localVersion c.remoteVersion = some merged →
        (mapGet fx.vault c.filePath).isSome = true →
        fx.faults = true :: rest →
        autoResolveConflict fx c ts = handleUnresolvableConflict ⟨fx.vault, rest⟩ c ts) := by
  intro policy fx c ts choice
  refine ⟨?_, ?_, ?_⟩
  · intro h
    by_cases hres : c.isResolvable
    · rcases h with hpol | hpol
      · subst hpol
        simp [resolveConflict, hres]
      · rw [hpol] at hres
        simp at hres
    · simp [resolveConflict, hres]
  · intro h1 h2 hne hcanon hf
    obtain ⟨vaultL, faultsL⟩ := fx
    simp only at h1 h2 hcanon hf
    subst hf
    obtain ⟨x, hx⟩ := Option.isSome_iff_exists.mp hcanon
    have hlbne : localBackupPath c.filePath ts ≠ c.filePath := by
      intro he
      rw [he, hx] at h1
      cases h1
    have hrbne : remoteBackupPath c.filePath ts ≠ c.filePath := by
      intro he
      rw [he, hx] at h2
      cases h2
    have e1 : vaultCreate ⟨vaultL, []⟩ (localBackupPath c.filePath ts) c.localVersion
        = (⟨vaultL ++ [(localBackupPath c.filePath ts, c.localVersion)], []⟩, false) := by
      simp [vaultCreate, h1]
    have hcanon1 : mapGet (vaultL ++ [(localBackupPath c.filePath ts, c.localVersion)]) c.filePath
        = some x := mapGet_append_some _ _ _ _ hx
    have e2 : applyRemoteVersion
          ⟨vaultL ++ [(localBackupPath c.filePath ts, c.localVersion)], []⟩ c
        = (⟨mapSet (vaultL ++ [(localBackupPath c.filePath ts, c.localVersion)])
              c.filePath c.remoteVersion, []⟩, false) := by
      simp [applyRemoteVersion, hcanon1, vaultModify]
    have hrb2 : mapGet (mapSet (vaultL ++ [(localBackupPath c.filePath ts, c.localVersion)])
          c.filePath c.remoteVersion) (remoteBackupPath c.filePath ts) = none := by
      rw [mapGet_mapSet_ne _ _ _ _ (Ne.symm hrbne)]
      rw [mapGet_append_none _ _ _ h2]
      simp [mapGet, hne]
    have e3 : vaultCreate ⟨mapSet (vaultL ++ [(localBackupPath c.filePath ts, c.localVersion)])
            c.filePath c.remoteVersion, []⟩ (remoteBackupPath c.filePath ts) c.remoteVersion
        = (⟨mapSet (vaultL ++ [(localBackupPath c.filePath ts, c.localVersion)])
              c.filePath c.remoteVersion
            ++ [(remoteBackupPath c.filePath ts, c.remoteVersion)], []⟩, false) := by
      simp [vaultCreate, hrb2]
    have hout : handleUnresolvableConflict ⟨vaultL, []⟩ c ts
        = (⟨mapSet (vaultL ++ [(localBackupPath c.filePath ts, c.localVersion)])
              c.filePath c.remoteVersion
            ++ [(remoteBackupPath c.filePath ts, c.remoteVersion)], []⟩, true) := by
      rw [handleUnresolvableConflict, e1]
      simp [e2, e3]
    rw [hout]
    refine ⟨rfl, ?_, ?_, ?_⟩
    · refine mapGet_append_some _ _ _ _ ?_
      rw [mapGet_mapSet_ne _ _ _ _ (Ne.symm hlbne)]
      rw [mapGet_append_none _ _ _ h1]
      simp [mapGet]
    · rw [mapGet_append_none _ _ _ hrb2]
      simp [mapGet]
    · exact mapGet_append_some _ _ _ _ (mapGet_mapSet_self _ _ _)
  · intro merged rest htype hmerge hcanon hfl
    obtain ⟨vaultL, faultsL⟩ := fx
    simp only at hcanon hfl
    subst hfl
    simp [autoResolveConflict, htype, hmerge, hcanon, vaultModify]

/-- C2 witness: an unresolvable conflict on an existing note.md routes to
the backup handler which creates both backups, applies the remote version
and returns true; and an auto-strategy write fault on a mergeable content
conflict falls back to the backup handler. -/
theorem c2_witness :
    (resolveConflict "auto" ⟨[("note.md", "OLD")], []⟩
        ⟨"structure", "note.md", "L", "R", 1, 2, false, "backup"⟩ "T" ""
      = handleUnresolvableConflict ⟨[("note.md", "OLD")], []⟩
          ⟨"structure", "note.md", "L", "R", 1, 2, false, "backup"⟩ "T")
    ∧ ((handleUnresolvableConflict ⟨[("note.md", "OLD")], []⟩
          ⟨"structure", "note.md", "L", "R", 1, 2, false, "backup"⟩ "T").2 = true
      ∧ mapGet (handleUnresolvableConflict ⟨[("note.md", "OLD")], []⟩
          ⟨"structure", "note.md", "L", "R", 1, 2, false, "backup"⟩ "T").1.vault
          "note.local-T.md" = some "L"
      ∧ mapGet (handleUnresolvableConflict ⟨[("note.md", "OLD")], []⟩
          ⟨"structure", "note.md", "L", "R", 1, 2, false, "backup"⟩ "T").1.vault
          "note.remote-T.md" = some "R"
      ∧ mapGet (handleUnresolvableConflict ⟨[("note.md", "OLD")], []⟩
          ⟨"structure", "note.md", "L", "R", 1, 2, false, "backup"⟩ "T").1.vault
          "note.md" = some "R")
    ∧ autoResolveConflict ⟨[("a.md", "x")], [true]⟩
        ⟨"content", "a.md", "", "R", 1, 2, true, "merge"⟩ "T"
      = handleUnresolvableConflict ⟨[("a.md", "x")], []⟩
          ⟨"content", "a.md", "", "R", 1, 2, true, "merge"⟩ "T" :=
  ⟨(c2_backup_fallback "auto" ⟨[("note.md", "OLD")], []⟩
      ⟨"structure", "note.md", "L", "R", 1, 2, false, "backup"⟩ "T" "").1 (Or.inr rfl),
   (c2_backup_fallback "auto" ⟨[("note.md", "OLD")], []⟩
      ⟨"structure", "note.md", "L", "R", 1, 2, false, "backup"⟩ "T" "").2.1
     (by decide) (by decide) (by decide) (by decide) rfl,
   (c2_backup_fallback "auto" ⟨[("a.md", "x")], [true]⟩
      ⟨"content", "a.md", "", "R", 1, 2, true, "merge"⟩ "T" "").2.2 "R" []
     rfl (by decide) (by decide) rfl⟩

/-! ## Sanitization is the identity on strings that already pass the
character-class regexes, so validated identifiers revalidate to
themselves. -/

theorem vaultIdChar_not_ws (c : Char) (h : isVaultIdChar c = true) : c.isWhitespace = false := by
  cases hw : c.isWhitespace with
  | false => rfl
  | true =>
    exfalso
    simp [Char.isWhitespace] at hw
    rcases hw with ((h1 | h1) | h1) | h1 <;> subst h1 <;> exact absurd h (by decide)

theorem userIdChar_not_ws (c : Char) (h : isUserIdChar c = true) : c.isWhitespace = false := by
  cases hw : c.isWhitespace with
  | false => rfl
  | true =>
    exfalso
    simp [Char.isWhitespace] at hw
    rcases hw with ((h1 | h1) | h1) | h1 <;> subst h1 <;> exact absurd h (by decide)

theorem dropWhile_eq_self_of_all (p : Char → Bool) (l : List Char)
    (h : ∀ c ∈ l, p c = false) : l.dropWhile p = l := by
  cases l with
  | nil => rfl
  | cons c t => simp [List.dropWhile_cons, h c (List.mem_cons_self c t)]

theorem charTrim_eq_self (l : List Char) (h : ∀ c ∈ l, c.isWhitespace = false) :
    charTrim l = l := by
  unfold charTrim
  rw [dropWhile_eq_self_of_all _ l h]
  rw [dropWhile_eq_self_of_all _ l.reverse (fun c hc => h c (List.mem_reverse.mp hc))]
  exact List.reverse_reverse l

theorem validateVaultIdStr_some_eq (s v : String) (h : validateVaultIdStr s = some v) :
    v = s := by
  unfold validateVaultIdStr at h
  split at h
  · cases h
  · split at h
    · cases h
    · split at h
      · rename_i hregex
        have hall : ∀ c ∈ s.data, isVaultIdChar c = true := by
          simp [vaultIdRegexTest] at hregex
          exact hregex.2
        have hws : ∀ c ∈ s.data, c.isWhitespace = false :=
          fun c hc => vaultIdChar_not_ws c (hall c hc)
        injection h with h2
        rw [charTrim_eq_self _ hws, List.filter_eq_self.mpr hall] at h2
        exact h2.symm
      · cases h

theorem validateUserIdStr_some_cases (s v : String) (h : validateUserIdStr s = some v) :
    v = s ∨ v = "anonymous" := by
  unfold validateUserIdStr at h
  split at h
  · injection h with h2
    exact Or.inr h2.symm
  · split at h
    · cases h
    · split at h
      · rename_i hregex
        have hall : ∀ c ∈ s.data, isUserIdChar c = true := by
          simp [userIdRegexTest] at hregex
          exact hregex.2
        have hws : ∀ c ∈ s.data, c.isWhitespace = false :=
          fun c hc => userIdChar_not_ws c (hall c hc)
        injection h with h2
        rw [charTrim_eq_self _ hws, List.filter_eq_self.mpr hall] at h2
        exact Or.inl h2.symm
      · cases h

theorem validateVaultIdParam_idem (o : Option String) (v : String)
    (h : validateVaultIdParam o = some v) : validateVaultIdStr v = some v := by
  cases o with
  | none => cases h
  | some s =>
    have he := validateVaultIdStr_some_eq s v h
    subst he
    exact h

theorem validateUserIdParam_idem (o : Option String) (v : String)
    (h : validateUserIdParam o = some v) : validateUserIdStr v = some v := by
  cases o with
  | none =>
    have he : v = "anonymous" := by
      simp [validateUserIdParam] at h
      exact h.symm
    subst he
    decide
  | some s =>
    rcases validateUserIdStr_some_cases s v h with he | he
    · subst he
      exact h
    · subst he
      decide

/-! ## The connection handler preserves the vault and session registries
on its rate-limit bookkeeping, and registration always succeeds on
revalidated parameters. -/

theorem vmCheckRateLimit_preserves (st : ServerState) (identifier ty : String) (now : Nat) :
    (vmCheckRateLimit st identifier ty now).1.vaults = st.vaults
    ∧ (vmCheckRateLimit st identifier ty now).1.sessions = st.sessions := by
  unfold vmCheckRateLimit
  split <;> exact ⟨rfl, rfl⟩

theorem handleConnectionParams_invalid (st : ServerState) (r : ConnRequest) (now : Nat)
    (vaultId userId : Option String) (h : vaultId = none ∨ userId = none) :
    (handleConnectionParams st r now vaultId userId).1 = st
    ∧ ∃ reason, (handleConnectionParams st r now vaultId userId).2 = .closed 1008 reason := by
  rcases h with h | h
  · subst h
    exact ⟨rfl, _, rfl⟩
  · subst h
    cases vaultId with
    | none => exact ⟨rfl, _, rfl⟩
    | some vv => exact ⟨rfl, _, rfl⟩

theorem handleConnectionParams_valid (st : ServerState) (r : ConnRequest) (now : Nat)
    (vv vu : String) (h1 : validateVaultIdStr vv = some vv) (h2 : validateUserIdStr vu = some vu) :
    (handleConnectionParams st r now (some vv) (some vu)).2 = .accepted r.connId := by
  have hrv : (registerVault st vv vu now).2 = true := by
    simp only [registerVault, h1, h2]
    split <;> rfl
  have hrs : (registerSession (registerVault st vv vu now).1 r.connId vv vu r.ip now).2 = true := by
    simp only [registerSession, h1, h2]
  simp only [handleConnectionParams, hrv, hrs]
  rfl

/-- C9: a connection whose vaultId or userId fails validation is closed
with code 1008 and neither the vault registry nor the session registry is
touched (the rejection happens before registration); a connection whose
parameters validate, and which passes the connection-count,
connection-rate, origin and authentication gates, is accepted and not
rejected for a parameter reason. -/
theorem c9_connection_validation :
    ∀ (st : ServerState) (r : ConnRequest) (now : Nat),
      ((validateVaultIdParam r.vaultIdParam = none ∨ validateUserIdParam r.userIdParam = none) →
        (∃ reason, (handleConnection st r now).2 = .closed 1008 reason)
        ∧ (handleConnection st r now).1.vaults = st.vaults
        ∧ (handleConnection st r now).1.sessions = st.sessions)
      ∧ (∀ (vv vu : String), validateVaultIdParam r.vaultIdParam = some vv →
        validateUserIdParam r.userIdParam = some vu →
        checkConnectionLimit st r.ip = true →
        (vmCheckRateLimit st r.ip "connection" now).2.isAllowed = true →
        (r.originEnabled = true → r.originOk = true) →
        (r.authRequired = true →
          (vmCheckRateLimit (vmCheckRateLimit st r.ip "connection" now).1
            r.ip "auth" now).2.isAllowed = true
          ∧ r.tokenOk = true) →
        (handleConnection st r now).2 = .accepted r.connId) := by
  intro st r now
  have hpres1 := vmCheckRateLimit_preserves st r.ip "connection" now
  have hpres2 := vmCheckRateLimit_preserves
    (vmCheckRateLimit st r.ip "connection" now).1 r.ip "auth" now
  constructor
  · intro hinv
    have hparams1 := handleConnectionParams_invalid
      (vmCheckRateLimit (vmCheckRateLimit st r.ip "connection" now).1 r.ip "auth" now).1 r now
      (validateVaultIdParam r.vaultIdParam) (validateUserIdParam r.userIdParam) hinv
    have hparams2 := handleConnectionParams_invalid
      (vmCheckRateLimit st r.ip "connection" now).1 r now
      (validateVaultIdParam r.vaultIdParam) (validateUserIdParam r.userIdParam) hinv
    simp only [handleConnection]
    split
    · exact ⟨⟨"Too many connections from this IP", rfl⟩, rfl, rfl⟩
    · split
      · exact ⟨⟨"Rate limit exceeded", rfl⟩, hpres1.1, hpres1.2⟩
      · split
        · exact ⟨⟨"Invalid origin", rfl⟩, hpres1.1, hpres1.2⟩
        · split
          · split
            · exact ⟨⟨"Auth rate limit exceeded", rfl⟩,
                by rw [hpres2.1, hpres1.1], by rw [hpres2.2, hpres1.2]⟩
            · split
              · exact ⟨⟨"Invalid token", rfl⟩,
                  by rw [hpres2.1, hpres1.1], by rw [hpres2.2, hpres1.2]⟩
              · exact ⟨hparams1.2,
                  by rw [hparams1.1, hpres2.1, hpres1.1],
                  by rw [hparams1.1, hpres2.2, hpres1.2]⟩
          · exact ⟨hparams2.2, by rw [hparams2.1, hpres1.1], by rw [hparams2.1, hpres1.2]⟩
  · intro vv vu hvv hvu hcl hcr hor hauth
    have h1 := validateVaultIdParam_idem r.vaultIdParam vv hvv
    have h2 := validateUserIdParam_idem r.userIdParam vu hvu
    simp only [handleConnection, hvv, hvu]
    rw [if_neg (by simp [hcl])]
    rw [if_neg (by simp [hcr])]
    rw [if_neg (by cases he : r.originEnabled <;> simp [he, hor])]
    by_cases ha : r.authRequired
    · obtain ⟨har, htok⟩ := hauth ha
      rw [if_pos ha]
      rw [if_neg (by simp [har])]
      rw [if_neg (by simp [htok])]
      exact handleConnectionParams_valid _ r now vv vu h1 h2
    · rw [if_neg ha]
      exact handleConnectionParams_valid _ r now vv vu h1 h2

/-- C9 witness: a vaultId containing a space is rejected with close code
1008 and no registration; a valid vaultId with a missing userId (defaulted
to anonymous) on a fresh server is accepted. -/
theorem c9_witness :
    ((∃ reason,
        (handleConnection ⟨[], [], [], [], []⟩
          ⟨some "bad id", some "u1", false, false, false, false, "c1", "ip1"⟩ 0).2
        = .closed 1008 reason)
      ∧ (handleConnection ⟨[], [], [], [], []⟩
          ⟨some "bad id", some "u1", false, false, false, false, "c1", "ip1"⟩ 0).1.vaults = []
      ∧ (handleConnection ⟨[], [], [], [], []⟩
          ⟨some "bad id", some "u1", false, false, false, false, "c1", "ip1"⟩ 0).1.sessions = [])
    ∧ (handleConnection ⟨[], [], [], [], []⟩
        ⟨some "vault1", none, false, false, false, false, "c1", "ip1"⟩ 0).2
      = .accepted "c1" :=
  ⟨(c9_connection_validation ⟨[], [], [], [], []⟩
      ⟨some "bad id", some "u1", false, false, false, false, "c1", "ip1"⟩ 0).1
      (Or.inl (by decide)),
   (c9_connection_validation ⟨[], [], [], [], []⟩
      ⟨some "vault1", none, false, false, false, false, "c1", "ip1"⟩ 0).2
      "vault1" "anonymous" (by decide) (by decide) (by decide) (by decide)
      (by decide) (by decide)⟩

/-- The id-collecting loop plus the id filter of processQueue computes
exactly the halt-at-first-failure replay, provided operation ids are
distinct. -/
theorem processLoop_replay (s : List OfflineOperation) :
    ∀ (v : VaultFs), (s.map (fun op => op.id)).Nodup →
      (processLoop v s).1 = (replay v s).1
      ∧ s.filter (fun op => !((processLoop v s).2.contains op.id)) = (replay v s).2 := by
  induction s with
  | nil =>
    intro v h
    exact ⟨rfl, rfl⟩
  | cons op rest ih =>
    intro v h
    have hx : (∀ x ∈ rest, ¬x.id = op.id) ∧ (rest.map (fun o => o.id)).Nodup := by
      simpa using h
    cases hr : (processOperation v op).2 with
    | false =>
      have hpl : processLoop v (op :: rest) = ((processOperation v op).1, []) := by
        simp [processLoop, hr]
      have hrp : replay v (op :: rest) = ((processOperation v op).1, op :: rest) := by
        simp [replay, hr]
      rw [hpl, hrp]
      refine ⟨rfl, ?_⟩
      exact List.filter_eq_self.mpr (fun o _ => rfl)
    | true =>
      have ihr := ih (processOperation v op).1 hx.2
      have hpl : processLoop v (op :: rest)
          = ((processLoop (processOperation v op).1 rest).1,
             op.id :: (processLoop (processOperation v op).1 rest).2) := by
        simp [processLoop, hr]
      have hrp : replay v (op :: rest) = replay (processOperation v op).1 rest := by
        simp [replay, hr]
      rw [hpl, hrp]
      refine ⟨ihr.1, ?_⟩
      simp only []
      rw [List.filter_cons_of_neg (by simp)]
      have hcongr : ∀ o ∈ rest,
          (!((op.id :: (processLoop (processOperation v op).1 rest).2).contains o.id))
          = (!((processLoop (processOperation v op).1 rest).2.contains o.id)) := by
        intro o ho
        simp [List.contains_cons, hx.1 o ho]
      rw [List.filter_congr hcongr]
      exact ihr.2

/-- C3: on an offline-to-online transition with a non-empty queue, the
manager runs processQueue; processQueue equals the halt-at-first-failure
replay over the timestamp-sorted queue, whose timestamps are pairwise
non-decreasing, so operations run one at a time in order, a failure leaves
the failed operation and everything after it queued and removes exactly
the successfully processed prefix; a delete whose target is gone and a
create whose target already exists succeed as skips without touching the
vault. -/
theorem c3_offline_queue_replay :
    ∀ (v : VaultFs) (q : List OfflineOperation),
      (q.map (fun op => op.id)).Nodup →
      processQueue v q = replay v (sortOps q)
      ∧ List.Pairwise (fun a b => a.timestamp ≤ b.timestamp) (sortOps q)
      ∧ (∀ (m : OfflineMgrState) (w : VaultFs), m.isOnline = false → m.queue = q → q ≠ [] →
          setOnlineStatus m w true
            = (⟨(processQueue w q).2, true⟩, (processQueue w q).1))
      ∧ (∀ (v1 : VaultFs) (op : OfflineOperation), op.type = OpType.delete →
          mapGet v1.files op.path = none → processOperation v1 op = (v1, true))
      ∧ (∀ (v1 : VaultFs) (op : OfflineOperation), op.type = OpType.create →
          fsExists v1 op.path = true → processOperation v1 op = (v1, true)) := by
  intro v q hnodup
  have hperm : (sortOps q).Perm q := List.mergeSort_perm q _
  have hnodup2 : ((sortOps q).map (fun op => op.id)).Nodup :=
    ((hperm.map (fun op => op.id)).nodup_iff).mpr hnodup
  refine ⟨?_, ?_, ?_, ?_, ?_⟩
  · have h := processLoop_replay (sortOps q) v hnodup2
    unfold processQueue
    exact Prod.ext h.1 h.2
  · have h := @List.sorted_mergeSort OfflineOperation
      (fun a b => decide (a.timestamp ≤ b.timestamp))
      (fun a b c hab hbc => by simp at hab hbc ⊢; omega)
      (fun a b => by simp [Nat.le_total]) q
    exact h.imp (fun hab => by simpa using hab)
  · intro m w h1 h2 h3
    subst h2
    unfold setOnlineStatus
    simp [h1, h3]
  · intro v1 op htype hpath
    obtain ⟨i0, ty, p0, np0, ct0, ts0, u0⟩ := op
    simp only at htype hpath
    subst htype
    simp [processOperation, hpath]
  · intro v1 op htype hpath
    obtain ⟨i0, ty, p0, np0, ct0, ts0, u0⟩ := op
    simp only at htype hpath
    subst htype
    simp [processOperation, hpath]

/-- C3 witness: a queue holding a create at time 2, a rename without a
target at time 3, a delete of a missing file at time 1 and a folder
creation at time 4, with distinct ids, replayed against an empty vault. -/
theorem c3_witness :
    (([⟨"id1", .create, "a.md", none, some "hi", 2, "u"⟩,
       ⟨"id3", .rename, "a.md", none, none, 3, "u"⟩,
       ⟨"id2", .delete, "gone.md", none, none, 1, "u"⟩,
       ⟨"id4", .createFolder, "f", none, none, 4, "u"⟩] : List OfflineOperation).map
        (fun op => op.id)).Nodup
    ∧ (processQueue ⟨[], []⟩
        [⟨"id1", .create, "a.md", none, some "hi", 2, "u"⟩,
         ⟨"id3", .rename, "a.md", none, none, 3, "u"⟩,
         ⟨"id2", .delete, "gone.md", none, none, 1, "u"⟩,
         ⟨"id4", .createFolder, "f", none, none, 4, "u"⟩]
        = replay ⟨[], []⟩ (sortOps
          [⟨"id1", .create, "a.md", none, some "hi", 2, "u"⟩,
           ⟨"id3", .rename, "a.md", none, none, 3, "u"⟩,
           ⟨"id2", .delete, "gone.md", none, none, 1, "u"⟩,
           ⟨"id4", .createFolder, "f", none, none, 4, "u"⟩])
      ∧ List.Pairwise (fun a b => a.timestamp ≤ b.timestamp) (sortOps
          [⟨"id1", .create, "a.md", none, some "hi", 2, "u"⟩,
           ⟨"id3", .rename, "a.md", none, none, 3, "u"⟩,
           ⟨"id2", .delete, "gone.md", none, none, 1, "u"⟩,
           ⟨"id4", .createFolder, "f", none, none, 4, "u"⟩])
      ∧ (∀ (m : OfflineMgrState) (w : VaultFs), m.isOnline = false →
          m.queue = [⟨"id1", .create, "a.md", none, some "hi", 2, "u"⟩,
            ⟨"id3", .rename, "a.md", none, none, 3, "u"⟩,
            ⟨"id2", .delete, "gone.md", none, none, 1, "u"⟩,
            ⟨"id4", .createFolder, "f", none, none, 4, "u"⟩] →
          [⟨"id1", .create, "a.md", none, some "hi", 2, "u"⟩,
            ⟨"id3", .rename, "a.md", none, none, 3, "u"⟩,
            ⟨"id2", .delete, "gone.md", none, none, 1, "u"⟩,
            ⟨"id4", .createFolder, "f", none, none, 4, "u"⟩] ≠ ([] : List OfflineOperation) →
          setOnlineStatus m w true
            = (⟨(processQueue w [⟨"id1", .create, "a.md", none, some "hi", 2, "u"⟩,
                  ⟨"id3", .rename, "a.md", none, none, 3, "u"⟩,
                  ⟨"id2", .delete, "gone.md", none, none, 1, "u"⟩,
                  ⟨"id4", .createFolder, "f", none, none, 4, "u"⟩]).2, true⟩,
               (processQueue w [⟨"id1", .create, "a.md", none, some "hi", 2, "u"⟩,
                  ⟨"id3", .rename, "a.md", none, none, 3, "u"⟩,
                  ⟨"id2", .delete, "gone.md", none, none, 1, "u"⟩,
                  ⟨"id4", .createFolder, "f", none, none, 4, "u"⟩]).1))
      ∧ (∀ (v1 : VaultFs) (op : OfflineOperation), op.type = OpType.delete →
          mapGet v1.files op.path = none → processOperation v1 op = (v1, true))
      ∧ (∀ (v1 : VaultFs) (op : OfflineOperation), op.type = OpType.create →
          fsExists v1 op.path = true → processOperation v1 op = (v1, true))) :=
  ⟨by decide,
   c3_offline_queue_replay ⟨[], []⟩
     [⟨"id1", .create, "a.md", none, some "hi", 2, "u"⟩,
      ⟨"id3", .rename, "a.md", none, none, 3, "u"⟩,
      ⟨"id2", .delete, "gone.md", none, none, 1, "u"⟩,
      ⟨"id4", .createFolder, "f", none, none, 4, "u"⟩] (by decide)⟩
